import Mathlib

/-!
Verification of the geospatial tile-search and caching core of the
google-maps-scraper repository, against its natural-language specification.

The Python sources are shallowly embedded:

* `api_cache.py` (`APIResponseCache`): the filesystem is an explicit
  association list from paths to file states; Python exceptions are an
  explicit `Except` layer; timestamps are exact rationals.
* `tile_grid.py` (`TileGrid`): coordinates are exact rationals; the two
  `while` loops of `create_grid` are step-indexed (a fuel parameter), with
  `none` denoting a loop that did not exit within the given fuel.
* `scraper.py` (`GoogleMapsScraper.search_tile`, `haversine_distance`):
  the places API is an oracle `Nat -> PageResp` giving the response obtained
  for the i-th request of the pagination loop (whether served from the disk
  cache or the network); float trigonometry is idealised over the reals.
* `web_server.py` (`scrape_worker` radius-expansion loop): the per-pass body
  (one full iteration over the tile list) is abstracted as an oracle giving
  the cumulative business count after each pass and whether the pass ended
  in a user-stop return; the control skeleton around it is embedded exactly.
-/

/-! ### JSON values and request parameters (api_cache.py) -/

/-- A JSON value as stored in a cache file.  Numbers are idealised as
rationals (Python floats/ints). -/
inductive JVal where
  | null : JVal
  | bool (b : Bool) : JVal
  | num (q : ℚ) : JVal
  | str (s : String) : JVal
  | arr (elems : List JVal) : JVal
  | obj (fields : List (String × JVal)) : JVal

/-- A request-parameter value: the `params` dicts passed to the cache hold
strings (query, location, key, pagetoken) and integers (radius). -/
inductive PVal where
  | s (v : String) : PVal
  | n (v : ℤ) : PVal
deriving DecidableEq

/-- The items of a Python `params` dict (keys unique in the source's use). -/
abbrev Params := List (String × PVal)

/-- `dict.get(k)` on a JSON object: first binding for `k`, if any. -/
def lookupObj (k : String) : List (String × JVal) → Option JVal
  | [] => none
  | (k', v) :: rest => if k' = k then some v else lookupObj k rest

/-! ### Canonical serialization: `json.dumps(clean_params, sort_keys=True)` -/

/-- JSON string escaping as performed by `json.dumps` on the parameter
values appearing in the source (quote, backslash, and control characters). -/
def jsonEscapeChar (c : Char) : String :=
  if c = '"' then "\\\""
  else if c = '\\' then "\\\\"
  else if c = '\n' then "\\n"
  else if c = '\t' then "\\t"
  else if c = '\r' then "\\r"
  else if c.toNat < 32 then
    let hexDigit (n : ℕ) : Char := if n < 10 then Char.ofNat (48 + n) else Char.ofNat (87 + n)
    "\\u00" ++ String.mk [hexDigit (c.toNat / 16), hexDigit (c.toNat % 16)]
  else String.mk [c]

def jsonEscape (s : String) : String :=
  String.join (s.data.map jsonEscapeChar)

def dumpPVal : PVal → String
  | .s v => "\"" ++ jsonEscape v ++ "\""
  | .n v => toString v

/-- `json.dumps` of a dict given as an ordered item list: default separators
`", "` and `": "`. -/
def dumpParams (l : Params) : String :=
  "\x7b" ++
    String.intercalate (", ")
      (l.map fun kv => "\"" ++ jsonEscape kv.1 ++ "\": " ++ dumpPVal kv.2) ++
  "\x7d"

/-- Ordering used by Python's `sorted(params.items())`: item tuples compare
lexicographically, and since dict keys are unique the order is decided by
the keys alone. -/
def keyLe (a b : String × PVal) : Prop := a.1 ≤ b.1

instance : DecidableRel keyLe := fun a b => inferInstanceAs (Decidable (a.1 ≤ b.1))

instance : IsTrans (String × PVal) keyLe := ⟨fun _ _ _ h h' => le_trans h h'⟩

instance : IsTotal (String × PVal) keyLe := ⟨fun a b => le_total a.1 b.1⟩

/-- `sorted(params.items())` (a stable sort by key). -/
def sortParams (l : Params) : Params := List.insertionSort keyLe l

/-! ### SHA-256 (`hashlib.sha256(raw.encode()).hexdigest()`)

Implemented over `ℕ` with explicit reduction mod `2^32`; `raw.encode()` is
UTF-8. -/

/-- UTF-8 encoding of one character (byte values as naturals). -/
def utf8Char (c : Char) : List ℕ :=
  let n := c.toNat
  if n < 128 then [n]
  else if n < 2048 then [192 + n / 64, 128 + n % 64]
  else if n < 65536 then [224 + n / 4096, 128 + (n / 64) % 64, 128 + n % 64]
  else [240 + n / 262144, 128 + (n / 4096) % 64, 128 + (n / 64) % 64, 128 + n % 64]

def utf8Bytes (s : String) : List ℕ := s.data.flatMap utf8Char

/-- 2^32, the word modulus of SHA-256. -/
def M32 : ℕ := 4294967296

def rotr32 (n x : ℕ) : ℕ := (x / 2 ^ n + (x % 2 ^ n) * 2 ^ (32 - n)) % M32

def shr32 (n x : ℕ) : ℕ := x / 2 ^ n

/-- The 64 SHA-256 round constants. -/
def sha256K : List ℕ :=
  [1116352408, 1899447441, 3049323471, 3921009573, 961987163, 1508970993,
   2453635748, 2870763221, 3624381080, 310598401, 607225278, 1426881987,
   1925078388, 2162078206, 2614888103, 3248222580, 3835390401, 4022224774,
   264347078, 604807628, 770255983, 1249150122, 1555081692, 1996064986,
   2554220882, 2821834349, 2952996808, 3210313671, 3336571891, 3584528711,
   113926993, 338241895, 666307205, 773529912, 1294757372, 1396182291,
   1695183700, 1986661051, 2177026350, 2456956037, 2730485921, 2820302411,
   3259730800, 3345764771, 3516065817, 3600352804, 4094571909, 275423344,
   430227734, 506948616, 659060556, 883997877, 958139571, 1322822218,
   1537002063, 1747873779, 1955562222, 2024104815, 2227730452, 2361852424,
   2428436474, 2756734187, 3204031479, 3329325298]

/-- The initial SHA-256 hash state. -/
def sha256H0 : List ℕ :=
  [1779033703, 3144134277, 1013904242, 2773480762, 1359893119, 2600822924,
   528734635, 1541459225]

/-- SHA-256 message padding: append 0x80, zero bytes to 56 mod 64, then the
bit length as 8 big-endian bytes. -/
def sha256Pad (msg : List ℕ) : List ℕ :=
  let len := msg.length
  let zeroCount := (55 + 64 - len % 64) % 64
  let bitLen := 8 * len
  msg ++ [128] ++ List.replicate zeroCount 0 ++
    ((List.range 8).map fun i => bitLen / 2 ^ (8 * (7 - i)) % 256)

/-- Big-endian 32-bit words from a byte list. -/
def bytesToWords : List ℕ → List ℕ
  | b0 :: b1 :: b2 :: b3 :: rest =>
      (((b0 * 256 + b1) * 256 + b2) * 256 + b3) :: bytesToWords rest
  | _ => []

/-- Split into 16-word blocks. -/
def toBlocks (ws : List ℕ) : List (List ℕ) :=
  if _h : ws.length < 16 then []
  else ws.take 16 :: toBlocks (ws.drop 16)
termination_by ws.length
decreasing_by
  simp [List.length_drop]
  omega

/-- Extend a 16-word block to the 64-word message schedule. -/
def sha256Extend (w : List ℕ) : ℕ → List ℕ
  | 0 => w
  | n + 1 =>
      let w' := sha256Extend w n
      let g (i : ℕ) : ℕ := w'.getD i 0
      let t := w'.length
      let s0 := (rotr32 7 (g (t - 15))).xor ((rotr32 18 (g (t - 15))).xor (shr32 3 (g (t - 15))))
      let s1 := (rotr32 17 (g (t - 2))).xor ((rotr32 19 (g (t - 2))).xor (shr32 10 (g (t - 2))))
      w' ++ [(g (t - 16) + s0 + g (t - 7) + s1) % M32]

/-- One round of the SHA-256 compression function. -/
def sha256Round (st : List ℕ) (k w : ℕ) : List ℕ :=
  let g (i : ℕ) : ℕ := st.getD i 0
  let a := g 0; let b := g 1; let c := g 2; let d := g 3
  let e := g 4; let f := g 5; let gg := g 6; let h := g 7
  let s1 := (rotr32 6 e).xor ((rotr32 11 e).xor (rotr32 25 e))
  let ch := (e.land f).xor ((M32 - 1 - e).land gg)
  let temp1 := (h + s1 + ch + k + w) % M32
  let s0 := (rotr32 2 a).xor ((rotr32 13 a).xor (rotr32 22 a))
  let maj := (a.land b).xor ((a.land c).xor (b.land c))
  let temp2 := (s0 + maj) % M32
  [(temp1 + temp2) % M32, a, b, c, (d + temp1) % M32, e, f, gg]

/-- Compress one block into the running hash state. -/
def sha256Block (hsh : List ℕ) (block : List ℕ) : List ℕ :=
  let w := sha256Extend block 48
  let st := List.foldl (fun st kw => sha256Round st kw.1 kw.2) hsh (sha256K.zip w)
  (hsh.zip st).map fun p => (p.1 + p.2) % M32

/-- The lower-case hexadecimal digit of value `n < 16`. -/
def hexDigit (n : ℕ) : Char :=
  if n < 10 then Char.ofNat (48 + n) else Char.ofNat (87 + n)

/-- Lower-case hexadecimal rendering of a 32-bit word. -/
def wordToHex (w : ℕ) : String :=
  String.mk ((List.range 8).map fun i => hexDigit (w / 16 ^ (7 - i) % 16))

/-- `hashlib.sha256(utf-8 bytes of s).hexdigest()`. -/
def sha256hex (s : String) : String :=
  let digest := List.foldl sha256Block sha256H0 (toBlocks (bytesToWords (sha256Pad (utf8Bytes s))))
  String.join (digest.map wordToHex)

/-! ### The disk and Python-exception model for `APIResponseCache` -/

/-- The state a cache file can be in, as observed by `get`: absent; a read
that raises `OSError`; bytes that are not valid UTF-8 (text-mode read raises
`UnicodeDecodeError`); UTF-8 text that is not valid JSON (`json.load` raises
`JSONDecodeError`); or text that parses to the JSON value `v`. -/
inductive FileState where
  | ioError : FileState
  | badUtf8 : FileState
  | badJson : FileState
  | jsonVal (v : JVal) : FileState

/-- The Python exceptions that can arise inside `APIResponseCache.get`. -/
inductive PyExc where
  | osError : PyExc
  | jsonDecodeError : PyExc
  | unicodeDecodeError : PyExc
  | attributeError : PyExc
  | typeError : PyExc
deriving DecidableEq

/-- The cache directory: paths mapped to file states. -/
abbrev Store := List (String × FileState)

def storeLookup : Store → String → Option FileState
  | [], _ => none
  | (p, v) :: rest, q => if p = q then some v else storeLookup rest q

/-- A whole-file write (create or replace). -/
def storePut : Store → String → FileState → Store
  | [], p, v => [(p, v)]
  | (p', v') :: rest, p, v =>
      if p' = p then (p, v) :: rest else (p', v') :: storePut rest p v

/-- `os.remove`. -/
def storeRemove (st : Store) (p : String) : Store :=
  st.filter fun e => e.1 ≠ p

/-- An `APIResponseCache` instance: configuration fields of `__init__`. -/
structure APIResponseCache where
  cache_dir : String := "output/.api_cache"
  ttl_seconds : ℚ := 86400

/-- `_cache_key`: drop the `'key'` item from the sorted params, serialize
canonically, join with the URL and hash.
`clean_params = {k: v for k, v in sorted(params.items()) if k != 'key'}`,
`raw = f"{url}|{json.dumps(clean_params, sort_keys=True)}"` (the dict is
already in sorted key order, so the `sort_keys=True` dump renders its items
in that order), `return hashlib.sha256(raw.encode()).hexdigest()`. -/
def APIResponseCache.cache_key (url : String) (params : Params) : String :=
  let clean_params := (sortParams params).filter fun kv => kv.1 ≠ "key"
  let raw := url ++ "|" ++ dumpParams clean_params
  sha256hex raw

/-- `_cache_path`: `os.path.join(self.cache_dir, f"{key}.json")`. -/
def APIResponseCache.cache_path (c : APIResponseCache) (key : String) : String :=
  c.cache_dir ++ "/" ++ key ++ ".json"

/-- The body of `get` after the `os.path.exists` check, i.e. the code inside
the `try:` block, with every exception it can raise made explicit.  `fs` is
the state of the file at the cache path, `now` is `time.time()`.
Returns the value `get` would return plus the store after the read (the read
deletes the file when the entry is stale). -/
def APIResponseCache.getBody (c : APIResponseCache) (st : Store) (path : String)
    (fs : FileState) (now : ℚ) : Except PyExc (Option JVal) × Store :=
  match fs with
  | .ioError => (.error .osError, st)
  | .badUtf8 => (.error .unicodeDecodeError, st)
  | .badJson => (.error .jsonDecodeError, st)
  | .jsonVal v =>
    match v with
    | .obj fields =>
      -- entry.get('cached_at', 0); time.time() - cached_at > ttl
      match (lookupObj "cached_at" fields).getD (.num 0) with
      | .num cached_at =>
          if now - cached_at > c.ttl_seconds then (.ok none, storeRemove st path)
          else (.ok (lookupObj "response" fields), st)
      | .bool b =>
          -- Python bools are ints: True = 1, False = 0
          if now - (if b then 1 else 0) > c.ttl_seconds then (.ok none, storeRemove st path)
          else (.ok (lookupObj "response" fields), st)
      | _ => (.error .typeError, st)  -- float minus str/list/dict/None
    | _ => (.error .attributeError, st)  -- entry.get on a non-dict

/-- `get`: the `os.path.exists` check, then the `try:` body with the
`except (json.JSONDecodeError, OSError)` handler mapping those two
exceptions to a `None` (cache miss) result; any other exception
propagates to the caller. -/
def APIResponseCache.get (c : APIResponseCache) (st : Store) (now : ℚ)
    (url : String) (params : Params) : Except PyExc (Option JVal) × Store :=
  let path := c.cache_path (APIResponseCache.cache_key url params)
  match storeLookup st path with
  | none => (.ok none, st)
  | some fs =>
    match c.getBody st path fs now with
    | (.error .jsonDecodeError, st') => (.ok none, st')
    | (.error .osError, st') => (.ok none, st')
    | r => r

/-- `put`: writes `{'cached_at': time.time(), 'url': url, 'response': response}`
as a whole-file replace at the cache path.  (A write that raises `OSError` is
swallowed by the source and leaves the store unchanged; this embedding models
the successful write.) -/
def APIResponseCache.put (c : APIResponseCache) (st : Store) (now : ℚ)
    (url : String) (params : Params) (response : JVal) : Store :=
  let path := c.cache_path (APIResponseCache.cache_key url params)
  storePut st path
    (.jsonVal (.obj [("cached_at", .num now), ("url", .str url), ("response", response)]))

/-! ### Cache lemmas -/

theorem storeLookup_storePut (st : Store) (p : String) (v : FileState) :
    storeLookup (storePut st p v) p = some v := by
  induction st with
  | nil => simp [storePut, storeLookup]
  | cons e rest ih =>
    by_cases h : e.1 = p
    · simp [storePut, h, storeLookup]
    · simp [storePut, h, storeLookup, ih]

/-- Inserting an element that is `keyLe`-below everything in the list puts it
in front. -/
theorem orderedInsert_of_all (x : String × PVal) (l : Params)
    (h : ∀ z ∈ l, keyLe x z) : l.orderedInsert keyLe x = x :: l := by
  cases l with
  | nil => simp [List.orderedInsert]
  | cons y t =>
    have : keyLe x y := h y (List.mem_cons_self y t)
    simp [List.orderedInsert, this]

/-- On a sorted list, a stable insertion commutes with `filter`. -/
theorem filter_orderedInsert (p : String × PVal → Bool) (x : String × PVal) :
    ∀ l : Params, l.Sorted keyLe →
      (l.orderedInsert keyLe x).filter p =
        if p x then (l.filter p).orderedInsert keyLe x else l.filter p := by
  intro l
  induction l with
  | nil =>
    intro _
    by_cases hx : p x <;> simp [List.orderedInsert, hx]
  | cons y t ih =>
    intro hsort
    by_cases hxy : keyLe x y
    · have hall : ∀ z ∈ (y :: t).filter p, keyLe x z := by
        intro z hz
        have hz' := List.mem_of_mem_filter hz
        rcases List.mem_cons.mp hz' with rfl | hzt
        · exact hxy
        · exact Trans.trans hxy (List.rel_of_sorted_cons hsort z hzt)
      by_cases hx : p x
      · simp only [List.orderedInsert, if_pos hxy]
        rw [orderedInsert_of_all x _ hall]
        simp [hx]
      · simp only [List.orderedInsert, if_pos hxy]
        rw [List.filter_cons, if_neg (by simp [hx])]
        simp [hx]
    · have ih' := ih hsort.of_cons
      by_cases hy : p y
      · by_cases hx : p x <;>
          simp [List.orderedInsert, hxy, hy, hx, List.filter_cons, ih' , if_pos, if_neg]
      · by_cases hx : p x <;>
          simp [List.orderedInsert, hxy, hy, hx, List.filter_cons, ih', if_pos, if_neg]

/-- A stable sort commutes with `filter`. -/
theorem filter_sortParams (p : String × PVal → Bool) (l : Params) :
    (sortParams l).filter p = sortParams (l.filter p) := by
  induction l with
  | nil => simp [sortParams, List.insertionSort]
  | cons x t ih =>
    simp only [sortParams, List.insertionSort]
    rw [filter_orderedInsert p x _ (List.sorted_insertionSort keyLe t)]
    simp only [sortParams] at ih
    by_cases hx : p x
    · rw [if_pos (by simp [hx]), ih]
      simp [List.insertionSort, hx, List.filter_cons]
    · rw [if_neg (by simp [hx]), ih]
      simp [hx, List.filter_cons]

/-- The derived cache key does not depend on the value stored under the
`'key'` field. -/
theorem cache_key_credential_independent (url : String) (pre post : Params)
    (v1 v2 : PVal) :
    APIResponseCache.cache_key url (pre ++ ("key", v1) :: post) =
      APIResponseCache.cache_key url (pre ++ ("key", v2) :: post) := by
  unfold APIResponseCache.cache_key
  have h : ∀ v : PVal,
      (sortParams (pre ++ ("key", v) :: post)).filter (fun kv => kv.1 ≠ "key") =
        sortParams ((pre ++ post).filter (fun kv => kv.1 ≠ "key")) := by
    intro v
    rw [filter_sortParams]
    congr 1
    simp [List.filter_append, List.filter_cons]
  rw [h v1, h v2]

/-- `get` after `put` hits whenever the two requests derive the same cache
key and the entry has not outlived the TTL. -/
theorem get_put_of_key_eq (c : APIResponseCache) (st : Store) (now now' : ℚ)
    (url url' : String) (params params' : Params) (resp : JVal)
    (hkey : APIResponseCache.cache_key url' params' = APIResponseCache.cache_key url params)
    (h : now' - now ≤ c.ttl_seconds) :
    c.get (c.put st now url params resp) now' url' params' =
      (.ok (some resp), c.put st now url params resp) := by
  simp only [APIResponseCache.get, APIResponseCache.put]
  rw [hkey, storeLookup_storePut]
  simp [APIResponseCache.getBody, lookupObj, not_lt.mpr h]

/-- C1: `get` after `put` with the same `(url, params)` returns the stored
response (within the TTL); the cache key ignores the value of the `'key'`
(credential) parameter, so a `put` under one credential is hit by a `get`
under another. -/
theorem claim_C1 (c : APIResponseCache) (st : Store) (now now' : ℚ)
    (url : String) (resp : JVal) (pre post : Params) (v1 v2 : PVal)
    (h : now' - now ≤ c.ttl_seconds) :
    (∀ params : Params,
      c.get (c.put st now url params resp) now' url params =
        (.ok (some resp), c.put st now url params resp)) ∧
    APIResponseCache.cache_key url (pre ++ ("key", v1) :: post) =
      APIResponseCache.cache_key url (pre ++ ("key", v2) :: post) ∧
    c.get (c.put st now url (pre ++ ("key", v1) :: post) resp) now' url
        (pre ++ ("key", v2) :: post) =
      (.ok (some resp), c.put st now url (pre ++ ("key", v1) :: post) resp) := by
  refine ⟨fun params => get_put_of_key_eq c st now now' url url params params resp rfl h,
    cache_key_credential_independent url pre post v1 v2,
    get_put_of_key_eq c st now now' url url _ _ resp
      (cache_key_credential_independent url pre post v2 v1) h⟩

theorem claim_C1_witness :
    (0 : ℚ) - 0 ≤ APIResponseCache.ttl_seconds {} ∧
    APIResponseCache.get {} (APIResponseCache.put {} [] 0 "https://maps.googleapis.com/api"
        [("query", .s "test"), ("key", .s "KEY_A")] (.str "R")) 0
        "https://maps.googleapis.com/api" [("query", .s "test"), ("key", .s "KEY_B")] =
      (.ok (some (.str "R")), APIResponseCache.put {} [] 0 "https://maps.googleapis.com/api"
        [("query", .s "test"), ("key", .s "KEY_A")] (.str "R")) :=
  ⟨by norm_num [APIResponseCache.ttl_seconds],
    (claim_C1 {} [] 0 0 "https://maps.googleapis.com/api" (.str "R")
      [("query", .s "test")] [] (.s "KEY_A") (.s "KEY_B")
      (by norm_num [APIResponseCache.ttl_seconds])).2.2⟩

/-- C3 counterexample: a cache file whose content is valid JSON but not an
object — here the JSON array `[]` — makes `get` raise an uncaught
`AttributeError` at `entry.get('cached_at', 0)` (only `json.JSONDecodeError`
and `OSError` are caught), so `get` does not always soft-fail to `None`. -/
theorem claim_C3_counterexample :
    (APIResponseCache.get {}
        [(APIResponseCache.cache_path {} (APIResponseCache.cache_key "u" []),
          FileState.jsonVal (JVal.arr []))]
        0 "u" []).1 = .error .attributeError := by
  simp [APIResponseCache.get, APIResponseCache.getBody, storeLookup]

/-- The file states on which the `try:` body of `get` cannot raise an
exception that escapes the `except (json.JSONDecodeError, OSError)` handler:
anything except invalid-UTF-8 content and content that parses to a JSON
value other than an object whose `cached_at` field (when present) is a
number or a bool. -/
def benignFile : FileState → Prop
  | .badUtf8 => False
  | .jsonVal (.obj fields) =>
      match (lookupObj "cached_at" fields).getD (.num 0) with
      | .num _ => True
      | .bool _ => True
      | _ => False
  | .jsonVal _ => False
  | _ => True

/-- C3 amended: `get` returns `None` (never raises) for a missing file, an
unreadable file (`OSError`) and undecodable JSON (`JSONDecodeError`); and it
raises no exception at all as long as every file on disk is `benignFile`
(readable, valid UTF-8, and parsing to an object whose `cached_at` is absent,
numeric or boolean).  Outside that set — e.g. a file holding the JSON array
`[]` — the exception escapes to the caller. -/
theorem claim_C3_amended (c : APIResponseCache) (st : Store) (now : ℚ)
    (url : String) (params : Params) :
    (storeLookup st (c.cache_path (APIResponseCache.cache_key url params)) = none →
      c.get st now url params = (.ok none, st)) ∧
    (storeLookup st (c.cache_path (APIResponseCache.cache_key url params)) = some .ioError →
      c.get st now url params = (.ok none, st)) ∧
    (storeLookup st (c.cache_path (APIResponseCache.cache_key url params)) = some .badJson →
      c.get st now url params = (.ok none, st)) ∧
    ((∀ p fs, storeLookup st p = some fs → benignFile fs) →
      ∃ r st', c.get st now url params = (.ok r, st')) := by
  refine ⟨fun h => ?_, fun h => ?_, fun h => ?_, fun h => ?_⟩
  · simp [APIResponseCache.get, h]
  · simp [APIResponseCache.get, h, APIResponseCache.getBody]
  · simp [APIResponseCache.get, h, APIResponseCache.getBody]
  · simp only [APIResponseCache.get]
    rcases hl : storeLookup st (c.cache_path (APIResponseCache.cache_key url params)) with _ | fs
    · exact ⟨none, st, rfl⟩
    · have hb := h _ _ hl
      cases fs with
      | ioError => exact ⟨none, st, by simp [APIResponseCache.getBody]⟩
      | badUtf8 => exact absurd hb (by simp [benignFile])
      | badJson => exact ⟨none, st, by simp [APIResponseCache.getBody]⟩
      | jsonVal v =>
        cases v with
        | obj fields =>
          simp only [APIResponseCache.getBody]
          rcases hc : (lookupObj "cached_at" fields).getD (.num 0) with _ | b | q | s | el | fl
          · exact absurd hb (by simp [benignFile, hc])
          · by_cases httl : now - (if b then 1 else 0) > c.ttl_seconds
              <;> simp [hc, httl]
          · by_cases httl : now - q > c.ttl_seconds
              <;> simp [hc, httl]
          · exact absurd hb (by simp [benignFile, hc])
          · exact absurd hb (by simp [benignFile, hc])
          · exact absurd hb (by simp [benignFile, hc])
        | null => exact absurd hb (by simp [benignFile])
        | bool b => exact absurd hb (by simp [benignFile])
        | num q => exact absurd hb (by simp [benignFile])
        | str s => exact absurd hb (by simp [benignFile])
        | arr el => exact absurd hb (by simp [benignFile])

theorem claim_C3_amended_witness :
    ∃ r st', APIResponseCache.get {} [] 0 "u" [] = (.ok r, st') :=
  (claim_C3_amended {} [] 0 "u" []).2.2.2
    (fun p fs h => by simp [storeLookup] at h)

/-! ### Tiles and the tile grid (models.py, tile_grid.py) -/

/-- models.py `Tile`: geographic rectangle plus mutable scan state. -/
structure Tile where
  id : String
  min_lat : ℚ
  max_lat : ℚ
  min_lng : ℚ
  max_lng : ℚ
  searched : Bool := false
  business_count : ℕ := 0
deriving DecidableEq

/-- `Tile.center`. -/
def Tile.center (t : Tile) : ℚ × ℚ :=
  ((t.min_lat + t.max_lat) / 2, (t.min_lng + t.max_lng) / 2)

/-- models.py `SearchConfig` (the fields `create_grid` reads). -/
structure SearchConfig where
  query : String
  min_lat : ℚ
  max_lat : ℚ
  min_lng : ℚ
  max_lng : ℚ
deriving DecidableEq

/-- Python's two-argument `min` on floats (idealised over `ℚ`), written
out so that concrete grids evaluate by reduction. -/
def pymin (a b : ℚ) : ℚ := if a ≤ b then a else b

theorem pymin_eq_min (a b : ℚ) : pymin a b = min a b := (min_def a b).symm

/-- The inner `while lng < config.max_lng` loop of `TileGrid.create_grid`,
one row of tiles at `lat`, step-indexed by `fuel` (`none` = the loop did not
exit within `fuel` iterations, as happens e.g. when `step ≤ 0`). -/
def lngLoop (cfg : SearchConfig) (tileSize step lat nextLat : ℚ) :
    ℕ → ℚ → ℕ → Option (List Tile × ℕ)
  | 0, _, _ => none
  | fuel + 1, lng, tid =>
    if lng < cfg.max_lng then
      let nextLng := pymin (lng + tileSize) cfg.max_lng
      let t : Tile := { id := "tile_" ++ toString tid, min_lat := lat, max_lat := nextLat,
                        min_lng := lng, max_lng := nextLng }
      let lng' := pymin (lng + step) cfg.max_lng
      if cfg.max_lng ≤ lng' then some ([t], tid + 1)
      else (lngLoop cfg tileSize step lat nextLat fuel lng' (tid + 1)).map
        fun r => (t :: r.1, r.2)
    else some ([], tid)

/-- The outer `while lat < config.max_lat` loop of `TileGrid.create_grid`. -/
def latLoop (cfg : SearchConfig) (tileSize step : ℚ) (innerFuel : ℕ) :
    ℕ → ℚ → ℕ → Option (List Tile × ℕ)
  | 0, _, _ => none
  | fuel + 1, lat, tid =>
    if lat < cfg.max_lat then
      let nextLat := pymin (lat + tileSize) cfg.max_lat
      match lngLoop cfg tileSize step lat nextLat innerFuel cfg.min_lng tid with
      | none => none
      | some (row, tid') =>
        let lat' := pymin (lat + step) cfg.max_lat
        if cfg.max_lat ≤ lat' then some (row, tid')
        else (latLoop cfg tileSize step innerFuel fuel lat' tid').map
          fun r => (row ++ r.1, r.2)
    else some ([], tid)

/-- `TileGrid.create_grid(config, overlap)`: scan the bounding box in steps
of `tile_size * (1 - overlap)`, emitting a tile of size `tile_size` clipped
to the box at each step; `tileSize` is the grid's `self.tile_size`. -/
def create_grid (fuel : ℕ) (tileSize : ℚ) (cfg : SearchConfig) (overlap : ℚ) :
    Option (List Tile) :=
  let step := tileSize * (1 - overlap)
  (latLoop cfg tileSize step fuel fuel cfg.min_lat 0).map fun r => r.1

/-- `TileGrid.mark_tile_searched`: sets the flags of the tile with the given
id (ids are unique, so updating every match equals the source's single
mutation through `_tile_map`). -/
def mark_tile_searched (tiles : List Tile) (tile_id : String) (business_count : ℕ) :
    List Tile :=
  tiles.map fun t =>
    if t.id = tile_id then { t with searched := true, business_count := business_count } else t

/-- The four quadrant tiles of `TileGrid.subdivide_tile` (fresh tiles:
`searched` defaults to false). -/
def subdivide_children (tile : Tile) : List Tile :=
  let mid_lat := (tile.min_lat + tile.max_lat) / 2
  let mid_lng := (tile.min_lng + tile.max_lng) / 2
  [{ id := tile.id ++ "_nw", min_lat := mid_lat, max_lat := tile.max_lat,
     min_lng := tile.min_lng, max_lng := mid_lng },
   { id := tile.id ++ "_ne", min_lat := mid_lat, max_lat := tile.max_lat,
     min_lng := mid_lng, max_lng := tile.max_lng },
   { id := tile.id ++ "_sw", min_lat := tile.min_lat, max_lat := mid_lat,
     min_lng := tile.min_lng, max_lng := mid_lng },
   { id := tile.id ++ "_se", min_lat := tile.min_lat, max_lat := mid_lat,
     min_lng := mid_lng, max_lng := tile.max_lng }]

/-- `TileGrid.subdivide_tile`: replace the tile (at its first index, as
`list.index` finds it) with its four children. -/
def subdivide_tile (tiles : List Tile) (tile : Tile) : List Tile :=
  let idx := tiles.indexOf tile
  tiles.take idx ++ subdivide_children tile ++ tiles.drop (idx + 1)

/-- The expansion controller's per-pass reset in `scrape_worker`
(`tile.searched = False; tile.business_count = 0` over all tiles). -/
def reset_tiles (tiles : List Tile) : List Tile :=
  tiles.map fun t => { t with searched := false, business_count := 0 }

/-- `TileGrid.searched_tiles`. -/
def searched_tiles (tiles : List Tile) : ℕ := tiles.countP (·.searched)

/-- `TileGrid.progress`: searched / total, 0 on an empty grid. -/
def progress (tiles : List Tile) : ℚ :=
  if tiles = [] then 0 else (searched_tiles tiles : ℚ) / (tiles.length : ℚ)

/-! ### Grid lemmas -/

theorem lngLoop_bounds (cfg : SearchConfig) (tileSize step lat nextLat : ℚ)
    (hstep : 0 ≤ step) :
    ∀ (fuel : ℕ) (lng : ℚ) (tid : ℕ) (row : List Tile) (tid2 : ℕ),
      cfg.min_lng ≤ lng →
      lngLoop cfg tileSize step lat nextLat fuel lng tid = some (row, tid2) →
      ∀ t ∈ row, t.min_lat = lat ∧ t.max_lat = nextLat ∧
        cfg.min_lng ≤ t.min_lng ∧ t.min_lng < cfg.max_lng ∧
        t.max_lng = min (t.min_lng + tileSize) cfg.max_lng := by
  intro fuel
  induction fuel with
  | zero =>
    intro lng tid row tid2 _ h
    simp [lngLoop] at h
  | succ fuel ih =>
    intro lng tid row tid2 hlng h
    simp only [lngLoop] at h
    by_cases hg : lng < cfg.max_lng
    · rw [if_pos hg] at h
      by_cases hstop : cfg.max_lng ≤ pymin (lng + step) cfg.max_lng
      · rw [if_pos hstop] at h
        obtain ⟨hrow, -⟩ : _ ∧ tid + 1 = tid2 := by simpa using h
        intro t ht
        rw [← hrow] at ht
        simp only [List.mem_singleton] at ht
        subst ht
        exact ⟨rfl, rfl, hlng, hg, pymin_eq_min _ _⟩
      · rw [if_neg hstop] at h
        rcases hrec : lngLoop cfg tileSize step lat nextLat fuel
            (pymin (lng + step) cfg.max_lng) (tid + 1) with _ | r
        · rw [hrec] at h; simp at h
        · rw [hrec] at h
          obtain ⟨hrow, -⟩ : _ ∧ r.2 = tid2 := by simpa using h
          intro t ht
          rw [← hrow] at ht
          rcases List.mem_cons.mp ht with rfl | htail
          · exact ⟨rfl, rfl, hlng, hg, pymin_eq_min _ _⟩
          · have hlng' : cfg.min_lng ≤ pymin (lng + step) cfg.max_lng := by
              rw [pymin_eq_min]
              exact le_min (le_trans hlng (le_add_of_nonneg_right hstep))
                (le_of_lt (lt_of_le_of_lt hlng hg))
            exact ih (pymin (lng + step) cfg.max_lng) (tid + 1) r.1 r.2 hlng' hrec t htail
    · rw [if_neg hg] at h
      obtain ⟨hrow, -⟩ : ([] : List Tile) = row ∧ tid = tid2 := by simpa using h
      intro t ht
      rw [← hrow] at ht
      simp at ht

theorem latLoop_bounds (cfg : SearchConfig) (tileSize step : ℚ) (innerFuel : ℕ)
    (hstep : 0 ≤ step) :
    ∀ (fuel : ℕ) (lat : ℚ) (tid : ℕ) (tiles : List Tile) (tid2 : ℕ),
      cfg.min_lat ≤ lat →
      latLoop cfg tileSize step innerFuel fuel lat tid = some (tiles, tid2) →
      ∀ t ∈ tiles, cfg.min_lat ≤ t.min_lat ∧ t.min_lat < cfg.max_lat ∧
        t.max_lat = min (t.min_lat + tileSize) cfg.max_lat ∧
        cfg.min_lng ≤ t.min_lng ∧ t.min_lng < cfg.max_lng ∧
        t.max_lng = min (t.min_lng + tileSize) cfg.max_lng := by
  intro fuel
  induction fuel with
  | zero =>
    intro lat tid tiles tid2 _ h
    simp [latLoop] at h
  | succ fuel ih =>
    intro lat tid tiles tid2 hlat h
    simp only [latLoop] at h
    by_cases hg : lat < cfg.max_lat
    · rw [if_pos hg] at h
      rcases hrow : lngLoop cfg tileSize step lat (pymin (lat + tileSize) cfg.max_lat)
          innerFuel cfg.min_lng tid with _ | ⟨rrow, rtid⟩
      · rw [hrow] at h; simp at h
      · rw [hrow] at h
        dsimp only at h
        have hrowfacts := lngLoop_bounds cfg tileSize step lat
          (pymin (lat + tileSize) cfg.max_lat) hstep innerFuel cfg.min_lng tid rrow rtid
          le_rfl hrow
        by_cases hstop : cfg.max_lat ≤ pymin (lat + step) cfg.max_lat
        · rw [if_pos hstop] at h
          obtain ⟨hrow2, -⟩ : rrow = tiles ∧ rtid = tid2 := by simpa using h
          intro t ht
          rw [← hrow2] at ht
          obtain ⟨h1, h2, h3, h4, h5⟩ := hrowfacts t ht
          exact ⟨h1 ▸ hlat, h1 ▸ hg, by rw [h1, h2, pymin_eq_min], h3, h4, h5⟩
        · rw [if_neg hstop] at h
          rcases hrec : latLoop cfg tileSize step innerFuel fuel
              (pymin (lat + step) cfg.max_lat) rtid with _ | r2
          · rw [hrec] at h; simp at h
          · rw [hrec] at h
            obtain ⟨hrow2, -⟩ : rrow ++ r2.1 = tiles ∧ r2.2 = tid2 := by simpa using h
            intro t ht
            rw [← hrow2] at ht
            rcases List.mem_append.mp ht with hin | hin
            · obtain ⟨h1, h2, h3, h4, h5⟩ := hrowfacts t hin
              exact ⟨h1 ▸ hlat, h1 ▸ hg, by rw [h1, h2, pymin_eq_min], h3, h4, h5⟩
            · have hlat' : cfg.min_lat ≤ pymin (lat + step) cfg.max_lat := by
                rw [pymin_eq_min]
                exact le_min (le_trans hlat (le_add_of_nonneg_right hstep))
                  (le_of_lt (lt_of_le_of_lt hlat hg))
              exact ih (pymin (lat + step) cfg.max_lat) rtid r2.1 r2.2 hlat' hrec t hin
    · rw [if_neg hg] at h
      obtain ⟨hrow2, -⟩ : ([] : List Tile) = tiles ∧ tid = tid2 := by simpa using h
      intro t ht
      rw [← hrow2] at ht
      simp at ht

/-- C7: on the box (0,1)x(0,1) with tile_size 1/2 and overlap 0, the grid
loop terminates and produces exactly 4 tiles that cover the box and stay
inside it; in general every emitted tile starts inside the box and extends
by `tile_size` clipped to the box edges. -/
theorem claim_C7 :
    (∃ tiles, create_grid 8 (1/2)
        { query := "q", min_lat := 0, max_lat := 1, min_lng := 0, max_lng := 1 } 0 =
          some tiles ∧
      tiles.length = 4 ∧
      (∀ t ∈ tiles, 0 ≤ t.min_lat ∧ t.max_lat ≤ 1 ∧ 0 ≤ t.min_lng ∧ t.max_lng ≤ 1) ∧
      (∀ a b : ℚ, 0 ≤ a → a ≤ 1 → 0 ≤ b → b ≤ 1 →
        ∃ t ∈ tiles, t.min_lat ≤ a ∧ a ≤ t.max_lat ∧ t.min_lng ≤ b ∧ b ≤ t.max_lng)) ∧
    (∀ (fuel : ℕ) (tileSize : ℚ) (cfg : SearchConfig) (overlap : ℚ) (tiles : List Tile),
      0 ≤ tileSize → overlap ≤ 1 →
      create_grid fuel tileSize cfg overlap = some tiles →
      ∀ t ∈ tiles, cfg.min_lat ≤ t.min_lat ∧ t.min_lat < cfg.max_lat ∧
        t.max_lat = min (t.min_lat + tileSize) cfg.max_lat ∧ t.max_lat ≤ cfg.max_lat ∧
        cfg.min_lng ≤ t.min_lng ∧ t.min_lng < cfg.max_lng ∧
        t.max_lng = min (t.min_lng + tileSize) cfg.max_lng ∧ t.max_lng ≤ cfg.max_lng) := by
  constructor
  · refine ⟨[{ id := "tile_0", min_lat := 0, max_lat := 1/2, min_lng := 0, max_lng := 1/2 },
             { id := "tile_1", min_lat := 0, max_lat := 1/2, min_lng := 1/2, max_lng := 1 },
             { id := "tile_2", min_lat := 1/2, max_lat := 1, min_lng := 0, max_lng := 1/2 },
             { id := "tile_3", min_lat := 1/2, max_lat := 1, min_lng := 1/2, max_lng := 1 }],
      by with_unfolding_all decide, by with_unfolding_all decide,
      by with_unfolding_all decide, ?_⟩
    intro a b ha1 ha2 hb1 hb2
    rcases le_or_lt a (1/2) with hA | hA <;> rcases le_or_lt b (1/2) with hB | hB
    · refine ⟨{ id := "tile_0", min_lat := 0, max_lat := 1/2, min_lng := 0, max_lng := 1/2 },
        by with_unfolding_all decide, ha1, hA, hb1, hB⟩
    · refine ⟨{ id := "tile_1", min_lat := 0, max_lat := 1/2, min_lng := 1/2, max_lng := 1 },
        by with_unfolding_all decide, ha1, hA, le_of_lt hB, hb2⟩
    · refine ⟨{ id := "tile_2", min_lat := 1/2, max_lat := 1, min_lng := 0, max_lng := 1/2 },
        by with_unfolding_all decide, le_of_lt hA, ha2, hb1, hB⟩
    · refine ⟨{ id := "tile_3", min_lat := 1/2, max_lat := 1, min_lng := 1/2, max_lng := 1 },
        by with_unfolding_all decide, le_of_lt hA, ha2, le_of_lt hB, hb2⟩
  · intro fuel tileSize cfg overlap tiles hts hov hcg
    have hstep : 0 ≤ tileSize * (1 - overlap) :=
      mul_nonneg hts (sub_nonneg.mpr hov)
    simp only [create_grid] at hcg
    rcases hl : latLoop cfg tileSize (tileSize * (1 - overlap)) fuel fuel cfg.min_lat 0
      with _ | ⟨ts2, tid2⟩
    · rw [hl] at hcg; simp at hcg
    · rw [hl] at hcg
      obtain rfl : ts2 = tiles := by simpa using hcg
      intro t ht
      obtain ⟨h1, h2, h3, h4, h5, h6⟩ :=
        latLoop_bounds cfg tileSize (tileSize * (1 - overlap)) fuel hstep fuel
          cfg.min_lat 0 ts2 tid2 le_rfl hl t ht
      exact ⟨h1, h2, h3, h3 ▸ min_le_right _ _, h4, h5, h6, h6 ▸ min_le_right _ _⟩

theorem claim_C7_witness :
    ∃ tiles, create_grid 8 (1/2)
        { query := "q", min_lat := 0, max_lat := 1, min_lng := 0, max_lng := 1 } 0 =
          some tiles ∧
      ∀ t ∈ tiles, (0:ℚ) ≤ t.min_lat ∧ t.min_lat < 1 ∧
        t.max_lat = min (t.min_lat + 1/2) 1 ∧ t.max_lat ≤ 1 ∧
        (0:ℚ) ≤ t.min_lng ∧ t.min_lng < 1 ∧
        t.max_lng = min (t.min_lng + 1/2) 1 ∧ t.max_lng ≤ 1 := by
  obtain ⟨⟨tiles, hg, -, -, -⟩, hgen⟩ := claim_C7
  exact ⟨tiles, hg, hgen 8 (1/2) _ 0 tiles (by norm_num) (by norm_num) hg⟩

/-- C8 counterexample: on a grid holding one searched tile (progress 1),
`subdivide_tile` replaces it with four unsearched children (progress 0), and
the expansion controller's per-pass reset clears the searched flag
(progress 0); both strictly decrease `progress`, so progress is not
monotonically non-decreasing across those operations. -/
theorem claim_C8_counterexample :
    progress (subdivide_tile
        [{ id := "tile_0", min_lat := 0, max_lat := 1, min_lng := 0, max_lng := 1,
           searched := true, business_count := 5 }]
        { id := "tile_0", min_lat := 0, max_lat := 1, min_lng := 0, max_lng := 1,
          searched := true, business_count := 5 }) <
      progress [{ id := "tile_0", min_lat := 0, max_lat := 1, min_lng := 0, max_lng := 1,
                  searched := true, business_count := 5 }] ∧
    progress (reset_tiles
        [{ id := "tile_0", min_lat := 0, max_lat := 1, min_lng := 0, max_lng := 1,
           searched := true, business_count := 5 }]) <
      progress [{ id := "tile_0", min_lat := 0, max_lat := 1, min_lng := 0, max_lng := 1,
                  searched := true, business_count := 5 }] := by
  with_unfolding_all decide

theorem countP_mark_tile_searched (tiles : List Tile) (tile_id : String) (cnt : ℕ) :
    tiles.countP (·.searched) ≤ (mark_tile_searched tiles tile_id cnt).countP (·.searched) := by
  induction tiles with
  | nil => simp [mark_tile_searched]
  | cons t rest ih =>
    simp only [mark_tile_searched, List.map_cons, List.countP_cons] at *
    refine Nat.add_le_add ih ?_
    by_cases h : t.id = tile_id
    · simp only [h, if_true]
      split <;> simp
    · simp [h]

/-- C8 amended: `progress` is monotonically non-decreasing under
`mark_tile_searched` (the only per-tile operation of the normal search
pass); `subdivide_tile` and the expansion controller's reset of the
`searched` flags can strictly decrease it. -/
theorem claim_C8_amended (tiles : List Tile) (tile_id : String) (cnt : ℕ) :
    progress tiles ≤ progress (mark_tile_searched tiles tile_id cnt) := by
  rcases eq_or_ne tiles [] with rfl | hne
  · simp [mark_tile_searched, progress]
  · have hlen : (mark_tile_searched tiles tile_id cnt).length = tiles.length := by
      simp [mark_tile_searched]
    have hne' : mark_tile_searched tiles tile_id cnt ≠ [] := by
      intro h
      exact hne (List.length_eq_zero.mp (by rw [← hlen, h, List.length_nil]))
    have hn : (0 : ℚ) < tiles.length := by
      have := List.length_pos.mpr hne
      exact_mod_cast this
    simp only [progress, searched_tiles, if_neg hne, if_neg hne', hlen]
    rw [div_le_div_iff_of_pos_right hn]
    exact_mod_cast countP_mark_tile_searched tiles tile_id cnt

/-! ### scraper.py: haversine distance and `search_tile` -/

/-- `math.radians` (floats idealised over the reals). -/
noncomputable def radians (x : ℝ) : ℝ := x * Real.pi / 180

/-- `haversine_distance` from scraper.py: great-circle distance in
kilometres between two points given in decimal degrees. -/
noncomputable def haversine_distance (lat1 lng1 lat2 lng2 : ℝ) : ℝ :=
  let l1 := radians lat1
  let g1 := radians lng1
  let l2 := radians lat2
  let g2 := radians lng2
  let dlat := l2 - l1
  let dlng := g2 - g1
  let a := Real.sin (dlat / 2) ^ 2 + Real.cos l1 * Real.cos l2 * Real.sin (dlng / 2) ^ 2
  let c := 2 * Real.arcsin (Real.sqrt a)
  c * 6371

/-- `geometry.location` of an API result (both coordinates optional). -/
structure Loc where
  lat : Option ℚ := none
  lng : Option ℚ := none
deriving DecidableEq

structure Geometry where
  location : Option Loc := none
deriving DecidableEq

/-- One record of a text-search response's `results` array: exactly the
fields `search_tile` reads, each possibly absent.  JSON numbers are
rationals. -/
structure Place where
  place_id : Option String := none
  name : Option String := none
  formatted_address : Option String := none
  rating : Option ℚ := none
  user_ratings_total : Option ℕ := none
  types : List String := []
  geometry : Option Geometry := none
deriving DecidableEq

/-- `place.get('geometry', {}).get('location', {}).get('lat', default)`. -/
def placeLat (p : Place) (dflt : ℚ) : ℚ :=
  match p.geometry with
  | none => dflt
  | some g =>
    match g.location with
    | none => dflt
    | some l => l.lat.getD dflt

/-- `place.get('geometry', {}).get('location', {}).get('lng', default)`. -/
def placeLng (p : Place) (dflt : ℚ) : ℚ :=
  match p.geometry with
  | none => dflt
  | some g =>
    match g.location with
    | none => dflt
    | some l => l.lng.getD dflt

/-- Python `str.title()` restricted to its effect on alphabetic runs: the
first letter of each run is uppercased, the rest lowercased. -/
def pyTitleGo : Bool → List Char → List Char
  | _, [] => []
  | prevAlpha, c :: rest =>
    let c' := if c.isAlpha then (if prevAlpha then c.toLower else c.toUpper) else c
    c' :: pyTitleGo c.isAlpha rest

def pyTitle (s : String) : String := String.mk (pyTitleGo false s.data)

/-- The `Business` record as constructed by `search_tile` (models.py fields
that the constructor call at scraper.py lines 219-231 sets). -/
structure Business where
  place_id : String
  name : String
  address : String
  phone : Option String := none
  website : Option String := none
  email : Option String := none
  rating : Option ℚ := none
  review_count : Option ℕ := none
  category : Option String := none
  latitude : ℚ
  longitude : ℚ
deriving DecidableEq

/-- The `Business(...)` constructor call of `search_tile`: `place_id`
defaults to the synthetic `f"api_{lat}_{lng}"` identifier, `name` to
`'Unknown'`, `address` to `''`; `category` is `types[0]` with underscores
replaced by spaces and title-cased, when `types` is non-empty. -/
def mkBusiness (p : Place) (lat lng : ℚ) : Business :=
  { place_id := p.place_id.getD ("api_" ++ toString lat ++ "_" ++ toString lng)
    name := p.name.getD "Unknown"
    address := p.formatted_address.getD ""
    phone := none
    website := none
    email := none
    rating := p.rating
    review_count := p.user_ratings_total
    category :=
      match p.types with
      | [] => none
      | t0 :: _ => some (pyTitle (t0.replace "_" " "))
    latitude := lat
    longitude := lng }

/-- The distance filter of `search_tile` (lines 209-214): a place is
skipped exactly when `max_radius_km`, `center_lat` and `center_lng` were
all supplied and the haversine distance from that center strictly exceeds
`max_radius_km`. -/
noncomputable def outsideRadius (center_lat center_lng max_radius_km : Option ℚ)
    (lat lng : ℚ) : Bool :=
  match max_radius_km, center_lat, center_lng with
  | some r, some clat, some clng =>
      decide ((r : ℝ) < haversine_distance clat clng lat lng)
  | _, _, _ => false

/-- The per-place loop of `search_tile` (lines 202-243): extract the
coordinates (defaulting to the tile center), apply the distance filter,
build the `Business`, and keep it only when its `place_id` is not yet in
the scraper-lifetime `_place_cache`.  The state is the list of ids in
`self._place_cache`, in insertion order; returns the updated state and the
batch appended to `businesses`. -/
noncomputable def processPlaces (center_lat center_lng max_radius_km : Option ℚ)
    (tile_lat tile_lng : ℚ) : List String → List Place → List String × List Business
  | cache, [] => (cache, [])
  | cache, p :: rest =>
    let lat := placeLat p tile_lat
    let lng := placeLng p tile_lng
    if outsideRadius center_lat center_lng max_radius_km lat lng then
      processPlaces center_lat center_lng max_radius_km tile_lat tile_lng cache rest
    else
      let business := mkBusiness p lat lng
      if cache.contains business.place_id then
        processPlaces center_lat center_lng max_radius_km tile_lat tile_lng cache rest
      else
        let r := processPlaces center_lat center_lng max_radius_km tile_lat tile_lng
          (cache ++ [business.place_id]) rest
        (r.1, business :: r.2)

/-- One text-search API response as consumed by the pagination loop. -/
structure PageResp where
  status : String := ""
  results : List Place := []
  next_page_token : Option String := none

/-- Outcome of the pagination loop: `hardFail` is the `return []` taken on
a non-OK first page; `pages` carries the accumulated `all_places`.  Both
record how many requests the loop issued. -/
inductive FetchOut where
  | hardFail (reqs : ℕ) : FetchOut
  | pages (places : List Place) (reqs : ℕ) : FetchOut

def FetchOut.reqCount : FetchOut → ℕ
  | .hardFail reqs => reqs
  | .pages _ reqs => reqs

def FetchOut.allPlaces : FetchOut → List Place
  | .hardFail _ => []
  | .pages places _ => places

/-- The `while page_count < max_pages` pagination loop of `search_tile`
(lines 147-197).  `api reqs` is the response obtained for the loop's
`reqs`-th request (from the disk cache for a first page hit, otherwise from
the network); `reqs` equals the source's `page_count` at the top of each
iteration, and `fuel = max_pages - page_count` step-indexes the guard.
A non-OK status breaks with the gathered places — except on the very first
page (no token, `page_count == 0`), where the function returns `[]`. -/
def fetchGo (api : ℕ → PageResp) : ℕ → ℕ → Bool → List Place → FetchOut
  | 0, reqs, _, acc => .pages acc reqs
  | fuel + 1, reqs, hasToken, acc =>
    let result := api reqs
    if result.status ≠ "OK" then
      if result.status = "INVALID_REQUEST" ∧ hasToken then .pages acc (reqs + 1)
      else if reqs = 0 then .hardFail (reqs + 1)
      else .pages acc (reqs + 1)
    else
      let acc' := acc ++ result.results
      match result.next_page_token with
      | none => .pages acc' (reqs + 1)
      | some _ => fetchGo api fuel (reqs + 1) true acc'

/-- `max_pages = 3`. -/
def max_pages : ℕ := 3

def fetchPages (api : ℕ → PageResp) : FetchOut := fetchGo api max_pages 0 false []

/-- `search_tile`: run the pagination loop, then process every gathered
place; on a first-page API error, return the empty batch with the
`_place_cache` untouched.  Returns the batch and the updated cache. -/
noncomputable def search_tile (placeCache : List String) (api : ℕ → PageResp)
    (tile : Tile) (center_lat center_lng max_radius_km : Option ℚ) :
    List Business × List String :=
  match fetchPages api with
  | .hardFail _ => ([], placeCache)
  | .pages places _ =>
    let r := processPlaces center_lat center_lng max_radius_km
      (tile.center).1 (tile.center).2 placeCache places
    (r.2, r.1)

/-- One `search_tile` invocation of the orchestration loop: its API oracle,
tile and filter arguments. -/
structure TileCall where
  api : ℕ → PageResp
  tile : Tile
  center_lat : Option ℚ := none
  center_lng : Option ℚ := none
  max_radius_km : Option ℚ := none

/-- A sequence of `search_tile` calls on one `GoogleMapsScraper` instance,
threading `_place_cache`; returns the batches in call order. -/
noncomputable def runCalls : List String → List TileCall → List (List Business)
  | _, [] => []
  | cache, c :: rest =>
    let r := search_tile cache c.api c.tile c.center_lat c.center_lng c.max_radius_km
    r.1 :: runCalls r.2 rest

/-! ### Deduplication lemmas -/

/-- After processing, `_place_cache` is the old cache extended by exactly
the ids of the emitted batch, in order. -/
theorem processPlaces_fst (clat clng mr : Option ℚ) (tlat tlng : ℚ) :
    ∀ (places : List Place) (cache : List String),
      (processPlaces clat clng mr tlat tlng cache places).1 =
        cache ++ ((processPlaces clat clng mr tlat tlng cache places).2.map (·.place_id)) := by
  intro places
  induction places with
  | nil => intro cache; simp [processPlaces]
  | cons p rest ih =>
    intro cache
    simp only [processPlaces]
    by_cases hout : outsideRadius clat clng mr (placeLat p tlat) (placeLng p tlng) = true
    · simpa [hout] using ih cache
    · simp only [hout, if_false, Bool.false_eq_true]
      by_cases hmem : cache.contains (mkBusiness p (placeLat p tlat) (placeLng p tlng)).place_id = true
      · rw [if_pos hmem]
        exact ih cache
      · rw [if_neg hmem]
        simp only [List.map_cons]
        rw [ih (cache ++ [(mkBusiness p (placeLat p tlat) (placeLng p tlng)).place_id])]
        simp

/-- Processing preserves distinctness of the `_place_cache` ids. -/
theorem processPlaces_nodup (clat clng mr : Option ℚ) (tlat tlng : ℚ) :
    ∀ (places : List Place) (cache : List String), cache.Nodup →
      (processPlaces clat clng mr tlat tlng cache places).1.Nodup := by
  intro places
  induction places with
  | nil => intro cache h; simpa [processPlaces] using h
  | cons p rest ih =>
    intro cache hnd
    simp only [processPlaces]
    by_cases hout : outsideRadius clat clng mr (placeLat p tlat) (placeLng p tlng) = true
    · simpa [hout] using ih cache hnd
    · simp only [hout, if_false, Bool.false_eq_true]
      by_cases hmem : cache.contains (mkBusiness p (placeLat p tlat) (placeLng p tlng)).place_id = true
      · rw [if_pos hmem]
        exact ih cache hnd
      · rw [if_neg hmem]
        refine ih _ ?_
        have hnotin : (mkBusiness p (placeLat p tlat) (placeLng p tlng)).place_id ∉ cache := by
          simpa using hmem
        simp [List.nodup_append, hnd, hnotin]

/-- Threading `_place_cache` through a call sequence keeps the cache plus
all emitted ids duplicate-free. -/
theorem runCalls_nodup :
    ∀ (calls : List TileCall) (cache : List String), cache.Nodup →
      (cache ++ ((((runCalls cache calls).flatten).map (·.place_id)))).Nodup := by
  intro calls
  induction calls with
  | nil => intro cache h; simpa [runCalls] using h
  | cons c rest ih =>
    intro cache hnd
    rcases hf : fetchPages c.api with reqs | ⟨places, reqs⟩
    · have hstep : runCalls cache (c :: rest) = [] :: runCalls cache rest := by
        simp only [runCalls, search_tile, hf]
      rw [hstep, List.flatten_cons, List.nil_append]
      exact ih cache hnd
    · have hstep : runCalls cache (c :: rest) =
          (processPlaces c.center_lat c.center_lng c.max_radius_km
            (c.tile.center).1 (c.tile.center).2 cache places).2 ::
          runCalls (processPlaces c.center_lat c.center_lng c.max_radius_km
            (c.tile.center).1 (c.tile.center).2 cache places).1 rest := by
        simp only [runCalls, search_tile, hf]
      rw [hstep, List.flatten_cons, List.map_append, ← List.append_assoc]
      have h1 := processPlaces_fst c.center_lat c.center_lng c.max_radius_km
        (c.tile.center).1 (c.tile.center).2 places cache
      have h2 := processPlaces_nodup c.center_lat c.center_lng c.max_radius_km
        (c.tile.center).1 (c.tile.center).2 places cache hnd
      rw [← h1]
      exact ih _ h2

/-- C2: over any sequence of `search_tile` calls on one scraper instance
(with the `_place_cache` starting empty), every `place_id` occurs at most
once in the concatenation of the returned batches: a business is kept only
the first time its id is seen in the scraper's lifetime, so nothing is
re-emitted on later passes even though tiles are rescanned. -/
theorem claim_C2 (calls : List TileCall) :
    ((((runCalls [] calls).flatten).map (·.place_id)).Nodup) := by
  simpa using runCalls_nodup calls [] List.nodup_nil

/-! ### Pagination lemmas -/

theorem fetchGo_reqs (api : ℕ → PageResp) :
    ∀ (fuel reqs : ℕ) (tok : Bool) (acc : List Place),
      (fetchGo api fuel reqs tok acc).reqCount ≤ reqs + fuel := by
  intro fuel
  induction fuel with
  | zero => intro reqs tok acc; simp [fetchGo, FetchOut.reqCount]
  | succ fuel ih =>
    intro reqs tok acc
    simp only [fetchGo]
    by_cases h1 : (api reqs).status ≠ "OK"
    · rw [if_pos h1]
      by_cases h2 : (api reqs).status = "INVALID_REQUEST" ∧ tok = true
      · rw [if_pos h2]; simp [FetchOut.reqCount]
      · rw [if_neg h2]
        by_cases h3 : reqs = 0
        · rw [if_pos h3]; simp [FetchOut.reqCount]
        · rw [if_neg h3]; simp [FetchOut.reqCount]
    · rw [if_neg h1]
      rcases htok : (api reqs).next_page_token with _ | t
      · simp [FetchOut.reqCount]
      · exact le_trans (ih (reqs + 1) true (acc ++ (api reqs).results)) (by omega)

/-- A non-OK first page is the `return []` path. -/
theorem fetchGo_first_page_error (api : ℕ → PageResp) (fuel : ℕ) (acc : List Place)
    (h : (api 0).status ≠ "OK") :
    fetchGo api (fuel + 1) 0 false acc = .hardFail 1 := by
  simp only [fetchGo]
  rw [if_pos h, if_neg (by simp)]
  simp

/-- A non-OK second page truncates pagination keeping the first page. -/
theorem fetchPages_second_page_error (api : ℕ → PageResp)
    (h0 : (api 0).status = "OK") (t : String) (ht : (api 0).next_page_token = some t)
    (h1 : (api 1).status ≠ "OK") :
    fetchPages api = .pages (api 0).results 2 := by
  simp only [fetchPages, max_pages]
  rw [show (3 : ℕ) = 2 + 1 from rfl]
  simp only [fetchGo]
  rw [if_neg (not_not_intro h0), ht]
  simp only [fetchGo, List.nil_append]
  rw [if_pos h1]
  by_cases hinv : (api (0 + 1)).status = "INVALID_REQUEST" <;> simp [hinv]

/-- C4: a non-OK status on the first page makes `search_tile` return the
empty list for that tile/query; a non-OK status on the second page stops
pagination but the first page's places are still processed and returned;
and the pagination loop never issues more than `max_pages = 3` requests. -/
theorem claim_C4 (api : ℕ → PageResp) (placeCache : List String) (tile : Tile)
    (clat clng mr : Option ℚ) :
    ((api 0).status ≠ "OK" →
      search_tile placeCache api tile clat clng mr = ([], placeCache)) ∧
    ((api 0).status = "OK" → (∃ t, (api 0).next_page_token = some t) →
      (api 1).status ≠ "OK" →
      search_tile placeCache api tile clat clng mr =
        ((processPlaces clat clng mr (tile.center).1 (tile.center).2 placeCache
            (api 0).results).2,
          (processPlaces clat clng mr (tile.center).1 (tile.center).2 placeCache
            (api 0).results).1)) ∧
    (fetchPages api).reqCount ≤ max_pages := by
  refine ⟨fun h => ?_, fun h0 ht h1 => ?_, ?_⟩
  · have hf : fetchPages api = .hardFail 1 := fetchGo_first_page_error api 2 [] h
    simp [search_tile, hf]
  · obtain ⟨t, ht⟩ := ht
    have hf := fetchPages_second_page_error api h0 t ht h1
    simp [search_tile, hf]
  · simpa [max_pages] using fetchGo_reqs api 3 0 false []

theorem claim_C4_witness :
    search_tile [] (fun _ => { status := "ZERO_RESULTS" })
        { id := "t", min_lat := 0, max_lat := 1, min_lng := 0, max_lng := 1 }
        none none none = ([], []) ∧
    search_tile []
        (fun i => if i = 0 then
          { status := "OK", results := [{ place_id := some "P" }],
            next_page_token := some "T" }
          else { status := "INVALID_REQUEST" })
        { id := "t", min_lat := 0, max_lat := 1, min_lng := 0, max_lng := 1 }
        none none none =
      ((processPlaces none none none (1/2) (1/2) [] [{ place_id := some "P" }]).2,
        (processPlaces none none none (1/2) (1/2) [] [{ place_id := some "P" }]).1) ∧
    (fetchPages (fun _ => { status := "ZERO_RESULTS" })).reqCount ≤ max_pages := by
  refine ⟨(claim_C4 (fun _ => { status := "ZERO_RESULTS" }) []
      { id := "t", min_lat := 0, max_lat := 1, min_lng := 0, max_lng := 1 }
      none none none).1 (by decide), ?_,
    (claim_C4 (fun _ => { status := "ZERO_RESULTS" }) []
      { id := "t", min_lat := 0, max_lat := 1, min_lng := 0, max_lng := 1 }
      none none none).2.2⟩
  have h := (claim_C4
      (fun i => if i = 0 then
        ({ status := "OK", results := [{ place_id := some "P" }],
           next_page_token := some "T" } : PageResp)
        else { status := "INVALID_REQUEST" })
      [] { id := "t", min_lat := 0, max_lat := 1, min_lng := 0, max_lng := 1 }
      none none none).2.1 rfl ⟨"T", rfl⟩ (by decide)
  simpa [Tile.center] using h

/-! ### Distance-filter lemmas -/

theorem haversine_self (a b : ℝ) : haversine_distance a b a b = 0 := by
  simp [haversine_distance]

/-- C5: whenever center coordinates and `max_radius_km` are all supplied,
(i) every business in the returned batch lies within `max_radius_km`
haversine kilometres of the center, (ii) a candidate whose distance is at
most the radius (including equality) passes the filter and is emitted, and
(iii) a candidate whose distance strictly exceeds the radius is dropped. -/
theorem claim_C5 (clat clng r tlat tlng : ℚ) :
    (∀ (cache : List String) (places : List Place) (b : Business),
      b ∈ (processPlaces (some clat) (some clng) (some r) tlat tlng cache places).2 →
      haversine_distance clat clng b.latitude b.longitude ≤ (r : ℝ)) ∧
    (∀ p : Place,
      haversine_distance clat clng (placeLat p tlat) (placeLng p tlng) ≤ (r : ℝ) →
      processPlaces (some clat) (some clng) (some r) tlat tlng [] [p] =
        ([(mkBusiness p (placeLat p tlat) (placeLng p tlng)).place_id],
          [mkBusiness p (placeLat p tlat) (placeLng p tlng)])) ∧
    (∀ p : Place,
      (r : ℝ) < haversine_distance clat clng (placeLat p tlat) (placeLng p tlng) →
      processPlaces (some clat) (some clng) (some r) tlat tlng [] [p] = ([], [])) := by
  refine ⟨?_, ?_, ?_⟩
  · intro cache places
    induction places generalizing cache with
    | nil => intro b hb; simp [processPlaces] at hb
    | cons p rest ih =>
      intro b hb
      simp only [processPlaces] at hb
      by_cases hout : outsideRadius (some clat) (some clng) (some r)
          (placeLat p tlat) (placeLng p tlng) = true
      · rw [if_pos hout] at hb
        exact ih cache b hb
      · rw [if_neg hout] at hb
        by_cases hmem : cache.contains
            (mkBusiness p (placeLat p tlat) (placeLng p tlng)).place_id = true
        · rw [if_pos hmem] at hb
          exact ih cache b hb
        · rw [if_neg hmem] at hb
          rcases List.mem_cons.mp hb with rfl | htail
          · have hnlt : ¬ ((r : ℝ) <
                haversine_distance clat clng (placeLat p tlat) (placeLng p tlng)) := by
              simpa [outsideRadius] using hout
            exact not_lt.mp hnlt
          · exact ih _ b htail
  · intro p hle
    have hnlt := not_lt.mpr hle
    simp [processPlaces, outsideRadius, hnlt]
  · intro p hlt
    simp [processPlaces, outsideRadius, hlt]

/-- A concrete nonzero haversine value: from (0,0) to (0,180) the distance
is half the earth circumference, `π * 6371` km. -/
theorem haversine_antipode : haversine_distance 0 0 0 180 = Real.pi * 6371 := by
  have h180 : (180 : ℝ) * Real.pi / 180 = Real.pi := by field_simp
  simp only [haversine_distance, radians, zero_mul, zero_div, sub_self, sub_zero,
    Real.sin_zero, Real.cos_zero, h180]
  rw [show Real.pi / 2 = Real.pi / 2 from rfl, Real.sin_pi_div_two]
  norm_num [Real.sqrt_one, Real.arcsin_one]
  ring

theorem claim_C5_witness :
    processPlaces (some 2) (some 3) (some 5) 2 3 [] [{}] =
      ([(mkBusiness {} 2 3).place_id], [mkBusiness {} 2 3]) ∧
    processPlaces (some 0) (some 0) (some 100) 0 180 [] [{}] = ([], []) := by
  constructor
  · refine (claim_C5 2 3 5 2 3).2.1 {} ?_
    have h0 : placeLat {} (2:ℚ) = 2 := rfl
    have h1 : placeLng {} (3:ℚ) = 3 := rfl
    rw [h0, h1, haversine_self]
    norm_num
  · refine (claim_C5 0 0 100 0 180).2.2 {} ?_
    have h0 : placeLat {} (0:ℚ) = 0 := rfl
    have h1 : placeLng {} (180:ℚ) = 180 := rfl
    rw [h0, h1]
    push_cast
    rw [haversine_antipode]
    nlinarith [Real.pi_gt_three]

/-- C10: a result record with no `geometry`/`location` gets the tile-center
coordinates; one with no `place_id` gets the synthetic identifier
`"api_{lat}_{lng}"` built from those coordinates; that synthetic id is the
deduplication key and such records are emitted as normal businesses
(a second occurrence is dropped by the id check, not the record skipped). -/
theorem claim_C10 :
    (∀ (p : Place) (tlat tlng : ℚ),
      (p.geometry = none ∨ ∃ g, p.geometry = some g ∧ g.location = none) →
      placeLat p tlat = tlat ∧ placeLng p tlng = tlng) ∧
    (∀ (p : Place) (lat lng : ℚ), p.place_id = none →
      (mkBusiness p lat lng).place_id = "api_" ++ toString lat ++ "_" ++ toString lng) ∧
    (∀ (p : Place) (tlat tlng : ℚ), p.place_id = none → p.geometry = none →
      processPlaces none none none tlat tlng [] [p, p] =
        (["api_" ++ toString tlat ++ "_" ++ toString tlng],
          [mkBusiness p tlat tlng])) := by
  refine ⟨?_, ?_, ?_⟩
  · intro p tlat tlng h
    rcases h with h | ⟨g, hg, hl⟩
    · simp [placeLat, placeLng, h]
    · simp [placeLat, placeLng, hg, hl]
  · intro p lat lng h
    simp [mkBusiness, h]
  · intro p tlat tlng hpid hgeom
    simp [processPlaces, outsideRadius, placeLat, placeLng, hgeom, mkBusiness, hpid]

theorem claim_C10_witness :
    placeLat {} 7 = 7 ∧ placeLng {} 9 = 9 ∧
    (mkBusiness {} 7 9).place_id = "api_" ++ toString (7:ℚ) ++ "_" ++ toString (9:ℚ) ∧
    processPlaces none none none 7 9 [] [{}, {}] =
      (["api_" ++ toString (7:ℚ) ++ "_" ++ toString (9:ℚ)], [mkBusiness {} 7 9]) := by
  obtain ⟨h1, h2, h3⟩ := claim_C10
  exact ⟨(h1 {} 7 9 (Or.inl rfl)).1, (h1 {} 7 9 (Or.inl rfl)).2,
    h2 {} 7 9 rfl, h3 {} 7 9 rfl rfl⟩

/-! ### The dynamic API radius (scraper.py lines 129-136) -/

/-- Python `int()` on a float: truncation toward zero. -/
noncomputable def pyInt (x : ℝ) : ℤ := if 0 ≤ x then ⌊x⌋ else ⌈x⌉

/-- The `radius` parameter sent with every request of `search_tile`:
lat/lng spans in degrees are scaled to kilometres by 111 (longitude
corrected by the cosine of the tile-center latitude), half the tile
diagonal is converted to integer metres (`base_radius`), multiplied by the
expansion multiplier and capped at 50000 metres. -/
noncomputable def search_radius (tile : Tile) (api_radius_multiplier : ℚ) : ℤ :=
  let tile_center_lat := ((tile.min_lat + tile.max_lat) / 2 : ℚ)
  let lat_span := ((tile.max_lat - tile.min_lat : ℚ) : ℝ)
  let lng_span := ((tile.max_lng - tile.min_lng : ℚ) : ℝ)
  let lat_km := lat_span * 111
  let lng_km := lng_span * 111 * Real.cos (radians (tile_center_lat : ℝ))
  let tile_diagonal_km := Real.sqrt (lat_km ^ 2 + lng_km ^ 2)
  let base_radius := pyInt (tile_diagonal_km * 1000 / 2)
  min (pyInt ((base_radius : ℝ) * (api_radius_multiplier : ℝ))) 50000

/-- C6: the search radius is exactly the capped composite of the claimed
formula — spans times 111 (longitude scaled by the cosine of the tile
center latitude), diagonal, halved, integer metres, times the multiplier —
and in particular it never exceeds 50000 metres. -/
theorem claim_C6 (tile : Tile) (api_radius_multiplier : ℚ) :
    search_radius tile api_radius_multiplier =
      min (pyInt ((pyInt (Real.sqrt
          ((((tile.max_lat - tile.min_lat : ℚ) : ℝ) * 111) ^ 2 +
            (((tile.max_lng - tile.min_lng : ℚ) : ℝ) * 111 *
              Real.cos (radians (((tile.min_lat + tile.max_lat) / 2 : ℚ) : ℝ))) ^ 2)
          * 1000 / 2) : ℝ) * (api_radius_multiplier : ℝ))) 50000 ∧
    search_radius tile api_radius_multiplier ≤ 50000 := by
  exact ⟨rfl, min_le_right _ _⟩

/-! ### The radius-expansion control loop (web_server.py scrape_worker) -/

/-- What one full pass over the tile list yields to the outer loop: the
cumulative `job.current_count` after the pass, and whether the pass ended
in the user-stop `return`. -/
structure PassOutcome where
  current : ℕ
  halted : Bool := false

/-- The `while expansion_count <= max_expansions` loop of `scrape_worker`,
with the body (one full pass over the tiles) abstracted as the oracle
`pass_fn`, indexed by the pass number.  `count` is `expansion_count`,
`mult` is `api_radius_multiplier`; the fuel equals
`maxExp + 1 - count`, mirroring the while guard (the loop breaks before
ever re-testing a guard that would fail, so the fuel-0 branch is
unreachable from the top-level entry).  After a pass the loop stops on a
user stop, on `current_count >= target_count`, and on
`multiplier >= max or expansion_count >= max_expansions`; otherwise the
multiplier grows by `incr` and the count by one.  Returns the number of
passes executed. -/
def expansionGo (pass_fn : ℕ → PassOutcome) (target : ℕ) (maxExp : ℕ)
    (maxMult incr : ℚ) : ℕ → ℕ → ℚ → ℕ → ℕ
  | 0, _, _, passes => passes
  | fuel + 1, count, mult, passes =>
    let o := pass_fn passes
    let passes' := passes + 1
    if o.halted then passes'
    else if target ≤ o.current then passes'
    else if maxMult ≤ mult ∨ maxExp ≤ count then passes'
    else expansionGo pass_fn target maxExp maxMult incr fuel (count + 1) (mult + incr) passes'

/-- The loop with the source's constants: `max_expansions = 4`,
`max_expansion_multiplier = 3.0`, `expansion_increment = 0.5`, starting
multiplier 1.0 and `expansion_count = 0`. -/
def expansion_passes (pass_fn : ℕ → PassOutcome) (target : ℕ) : ℕ :=
  expansionGo pass_fn target 4 3 (1/2) (4 + 1) 0 1 0

theorem expansionGo_le (pass_fn : ℕ → PassOutcome) (target maxExp : ℕ)
    (maxMult incr : ℚ) :
    ∀ (fuel count : ℕ) (mult : ℚ) (passes : ℕ),
      expansionGo pass_fn target maxExp maxMult incr fuel count mult passes ≤
        passes + fuel := by
  intro fuel
  induction fuel with
  | zero => intro count mult passes; simp [expansionGo]
  | succ fuel ih =>
    intro count mult passes
    simp only [expansionGo]
    by_cases h1 : (pass_fn passes).halted = true
    · rw [if_pos h1]; omega
    · rw [if_neg h1]
      by_cases h2 : target ≤ (pass_fn passes).current
      · rw [if_pos h2]; omega
      · rw [if_neg h2]
        by_cases h3 : maxMult ≤ mult ∨ maxExp ≤ count
        · rw [if_pos h3]; omega
        · rw [if_neg h3]
          exact le_trans (ih (count + 1) (mult + incr) (passes + 1)) (by omega)

/-- C9: with a target count that no pass can reach, the radius-expansion
loop still executes at most `max_expansions + 1` full passes over the tile
list (at most 5 with the source's defaults) — it cannot loop forever. -/
theorem claim_C9 (pass_fn : ℕ → PassOutcome) (target : ℕ)
    (_hunreachable : ∀ i, (pass_fn i).current < target) :
    (∀ (maxExp : ℕ) (maxMult incr : ℚ),
      expansionGo pass_fn target maxExp maxMult incr (maxExp + 1) 0 1 0 ≤ maxExp + 1) ∧
    expansion_passes pass_fn target ≤ 4 + 1 := by
  refine ⟨fun maxExp maxMult incr => ?_, ?_⟩
  · simpa using expansionGo_le pass_fn target maxExp maxMult incr (maxExp + 1) 0 1 0
  · simpa [expansion_passes] using
      expansionGo_le pass_fn target 4 3 (1/2) (4 + 1) 0 1 0

theorem claim_C9_witness :
    (∀ i, ((fun _ => { current := 0 } : ℕ → PassOutcome) i).current < 10) ∧
    expansion_passes (fun _ => { current := 0 }) 10 ≤ 4 + 1 :=
  ⟨fun _ => by norm_num,
    (claim_C9 (fun _ => { current := 0 }) 10 (fun _ => by norm_num)).2⟩
